import Mathlib

/-!
# Verification of the rex-cli configuration resolver and compilation cache

Shallow embedding of `src/ConfigurationManager.js`, `src/CacheManager.js` and
`src/errors.js` of the rex-cli repository, together with proofs settling the
frozen claims about them.

JavaScript objects are modelled as association lists of string keys (JS object
keys are unique; insertion-order semantics of property assignment and deletion
are mirrored by `setKey` / `delKey`).  The JS value `undefined` is a first-class
member of the value type (`vUndef`), since the source distinguishes it
(`_sanitizeCliOptions`, `setUtilityConfig`, `validateRequiredConfig`).
-/

namespace Rex

/-- JSON-ish JavaScript values as handled by the configuration manager. -/
inductive JValue where
  | vUndef
  | vNull
  | vBool (b : Bool)
  | vNum (n : Int)
  | vStr (s : String)
  | vArr (elems : List JValue)
  | vObj (fields : List (String × JValue))

abbrev Fields := List (String × JValue)

/-- Property read `obj[k]` on an association list (first match, keys unique in JS). -/
def getKey : List (String × α) → String → Option α
  | [], _ => none
  | (k', v) :: rest, k => if k' = k then some v else getKey rest k

/-- Property write `obj[k] = v`: updates an existing key in place, else appends
(matching JS property-order semantics). -/
def setKey : List (String × α) → String → α → List (String × α)
  | [], k, v => [(k, v)]
  | (k', v') :: rest, k, v => if k' = k then (k, v) :: rest else (k', v') :: setKey rest k v

/-- Property delete `delete obj[k]`. -/
def delKey : List (String × α) → String → List (String × α)
  | [], _ => []
  | (k', v') :: rest, k => if k' = k then delKey rest k else (k', v') :: delKey rest k

/-- `_isObject(obj)`: `obj !== null && typeof obj === 'object' && !Array.isArray(obj)`. -/
def isObject : JValue → Bool
  | .vObj _ => true
  | _ => false

/-- JS truthiness test used by `!x` guards (`undefined`, `null`, `false`, `0`, `''`
are falsy). -/
def jFalsy : JValue → Bool
  | .vUndef => true
  | .vNull => true
  | .vBool b => !b
  | .vNum n => n == 0
  | .vStr s => s == ""
  | _ => false

/-- `x` when truthy, else `{}` — the `if (!target) target = {}` guard of `_deepMerge`. -/
def unfalsy (v : JValue) : JValue := if jFalsy v then .vObj [] else v

/-- Own enumerable properties, as used by spread `{...x}` and `for..in`.
Configuration fragments are nested mappings, so only the `vObj` case is
reachable from the claims; non-mapping values (which would only arise from a
malformed `config.json`) are modelled as having no own properties. -/
def ownFields : JValue → Fields
  | .vObj fs => fs
  | _ => []

mutual

/-- The `for (const key in source)` loop of `_deepMerge`: `tf` is the target's
fields (lookups use `target[key]`), `acc` the result being built (starts as
`{...target}`), the third argument the remaining source entries. -/
def mergeFields (tf acc : Fields) : Fields → Fields
  | [] => acc
  | (k, sv) :: rest => mergeFields tf (setKey acc k (mergeVal (getKey tf k) sv)) rest
termination_by src => sizeOf src

/-- One merged entry: a key whose value is a nested mapping on both sides
(`_isObject` both) is merged recursively; otherwise the source value replaces
the target value outright. -/
def mergeVal : Option JValue → JValue → JValue
  | some (.vObj tvf), .vObj svf => .vObj (mergeFields tvf tvf svf)
  | _, sv => sv
termination_by _ sv => sizeOf sv

end

/-- `_deepMerge(target, source)`. -/
def deepMerge (t s : JValue) : JValue :=
  .vObj (mergeFields (ownFields (unfalsy t)) (ownFields (unfalsy t)) (ownFields (unfalsy s)))

/-- `value === undefined`. -/
def isUndef : JValue → Bool
  | .vUndef => true
  | _ => false

/-- `_sanitizeCliOptions(cliOptions)`: drops `undefined`-valued top-level keys. -/
def sanitizeCliOptions (opts : Fields) : Fields :=
  opts.filter (fun kv => !(isUndef kv.2))

/-- `_mergeConfigurations(globalConfig, projectConfig, cliOptions)`. -/
def mergeConfigurations (globalConfig projectConfig : JValue) (cliOptions : Fields) : JValue :=
  deepMerge (deepMerge globalConfig projectConfig) (.vObj (sanitizeCliOptions cliOptions))

/-- `keyPath.split('.')` (JS `String.split` with a one-character separator). -/
def splitSegs : List Char → String → List String
  | [], acc => [acc]
  | c :: cs, acc => if c = '.' then acc :: splitSegs cs "" else splitSegs cs (acc.push c)

def splitPath (s : String) : List String := splitSegs s.data ""

/-- `key in current` / `current[key]` for one step of `_getNestedValue`'s walk:
objects expose their own keys; arrays expose canonical numeric indices and
`length` (JS `in` on arrays). Other values fail the
`current && typeof current === 'object'` guard. -/
def stepIn : JValue → String → Option JValue
  | .vObj fs, k => getKey fs k
  | .vArr xs, k =>
      if k = "length" then some (.vNum (xs.length : Int))
      else
        match k.toNat? with
        | some i => if toString i = k then xs[i]? else none
        | none => none
  | _, _ => none

/-- The key-walking loop of `_getNestedValue`. -/
def getNestedGo (current : JValue) (defaultValue : JValue) : List String → JValue
  | [] => current
  | k :: rest =>
      match stepIn current k with
      | some v => getNestedGo v defaultValue rest
      | none => defaultValue

/-- `_getNestedValue(obj, keyPath, defaultValue)`. -/
def getNestedValue (obj : JValue) (keyPath : String) (defaultValue : JValue) : JValue :=
  getNestedGo obj defaultValue (splitPath keyPath)

/-- The ancestor-materialising walk of `_setNestedValue`: any intermediate key
whose current value is not a plain object is replaced by `{}`. -/
def setNestedFields (fs : Fields) (keys : List String) (lastKey : String) (value : JValue) :
    Fields :=
  match keys with
  | [] => setKey fs lastKey value
  | k :: rest =>
      let childFields : Fields :=
        match getKey fs k with
        | some (.vObj cf) => cf
        | _ => []
      setKey fs k (.vObj (setNestedFields childFields rest lastKey value))

/-- `_setNestedValue(obj, keyPath, value)`: `keys = keyPath.split('.')`,
`lastKey = keys.pop()`. -/
def setNestedValue (fs : Fields) (keyPath : String) (value : JValue) : Fields :=
  let keys := splitPath keyPath
  setNestedFields fs keys.dropLast (keys.getLastD "") value

/-! ## Errors (`src/errors.js`) -/

/-- The error classes of `src/errors.js` (the "kinds" of the spec's taxonomy). -/
inductive RexErrorKind where
  | permissionError
  | validationError
  | notFoundError
  | fileSystemError
deriving DecidableEq

structure RexError where
  kind : RexErrorKind
  message : String

/-- Message construction of the `FileSystemError` constructor:
`Failed to ${operation} '${path}': ${errorMessage}` with
`errorMessage = originalError && originalError.message ? originalError.message
: (originalError || 'Unknown error')`.  A JS `undefined` interpolated into a
template literal prints as `"undefined"`; callers passing no `path` /
`originalError` are modelled by `"undefined"` / `none`. -/
def fileSystemErrorMessage (operation pathStr : String) (originalMessage : Option String) :
    String :=
  "Failed to " ++ (operation ++ (" '" ++ (pathStr ++ ("': " ++ originalMessage.getD "Unknown error"))))

def notLoadedMessage : String := "Configuration not loaded. Call loadConfiguration() first."

/-! ## ConfigurationManager state and queries -/

structure ConfigurationManager where
  globalConfig : Option JValue
  projectConfig : Option JValue
  mergedConfig : Option Fields

namespace ConfigurationManager

/-- `new ConfigurationManager()`. -/
def init : ConfigurationManager := ⟨none, none, none⟩

/-- `reset()`. -/
def reset (_m : ConfigurationManager) : ConfigurationManager := ⟨none, none, none⟩

/-- `get(key, defaultValue)`. -/
def get (m : ConfigurationManager) (key : String) (defaultValue : JValue) :
    Except RexError JValue :=
  match m.mergedConfig with
  | none => .error ⟨.validationError, notLoadedMessage⟩
  | some cfg => .ok (getNestedValue (.vObj cfg) key defaultValue)

/-- `getAll()` (the shallow copy `{...merged}` is the same value). -/
def getAll (m : ConfigurationManager) : Except RexError JValue :=
  match m.mergedConfig with
  | none => .error ⟨.validationError, notLoadedMessage⟩
  | some cfg => .ok (.vObj cfg)

/-- `isLoaded()`. -/
def isLoaded (m : ConfigurationManager) : Bool := m.mergedConfig.isSome

/-- `set(key, value)`: initialises an empty merged configuration when none is
loaded, then writes in memory only. -/
def set (m : ConfigurationManager) (key : String) (value : JValue) : ConfigurationManager :=
  let cfg := m.mergedConfig.getD []
  { m with mergedConfig := some (setNestedValue cfg key value) }

/-- `validateRequiredConfig(requiredKeys)`: collects every key for which
`this.get(key) === undefined` and reports them all in one `ValidationError`. -/
def validateRequiredConfig (m : ConfigurationManager) (requiredKeys : List String) :
    Except RexError Unit :=
  match m.mergedConfig with
  | none => .error ⟨.validationError, notLoadedMessage⟩
  | some cfg =>
      let missing := requiredKeys.filter (fun k => isUndef (getNestedValue (.vObj cfg) k .vUndef))
      if missing.length > 0 then
        .error ⟨.validationError, "Missing required configuration: " ++ String.intercalate ", " missing⟩
      else
        .ok ()

end ConfigurationManager

/-! ## Loading (`loadConfiguration`, `_loadGlobalConfig`, `_loadProjectConfig`)

File-system reads are modelled by their observable outcome: the config file is
absent, deserialises to a value, or reading/parsing fails with a message. -/

inductive ReadResult where
  | missing
  | found (v : JValue)
  | failure (msg : String)

/-- `_loadGlobalConfig()`: returns the parsed config (`config || {}`), an empty
object when the file is absent, or an empty object plus a console warning when
reading fails.  Never throws. -/
def loadGlobalConfig : ReadResult → JValue × List String
  | .missing => (.vObj [], [])
  | .found v => (if jFalsy v then .vObj [] else v, [])
  | .failure msg => (.vObj [], ["Warning: Could not load global config: " ++ msg])

/-- `_loadProjectConfig()`: same tolerance as `_loadGlobalConfig`. -/
def loadProjectConfig : ReadResult → JValue × List String
  | .missing => (.vObj [], [])
  | .found v => (if jFalsy v then .vObj [] else v, [])
  | .failure msg => (.vObj [], ["Warning: Could not load project config: " ++ msg])

/-- The `try { ... } catch` skeleton of `loadConfiguration(cliOptions)`: the two
fragment loads never throw, so only the merge step (`mergeStep`) can; a merge
failure is rethrown as `new FileSystemError(\x7bFailed to load configuration:
${error.message}\x7d)` (the one-argument call leaves `path`/`originalError`
undefined). Returns the result together with the console warnings emitted. -/
def loadConfigurationWith
    (mergeStep : JValue → JValue → Fields → Except String JValue)
    (globalRead projectRead : ReadResult) (cliOptions : Fields) :
    Except RexError JValue × List String :=
  let (g, w1) := loadGlobalConfig globalRead
  let (p, w2) := loadProjectConfig projectRead
  match mergeStep g p cliOptions with
  | .ok merged => (.ok merged, w1 ++ w2)
  | .error msg =>
      (.error ⟨.fileSystemError,
        fileSystemErrorMessage ("Failed to load configuration: " ++ msg) "undefined" none⟩,
       w1 ++ w2)

/-- `loadConfiguration(cliOptions)` with the actual (total) merge step. -/
def loadConfiguration (globalRead projectRead : ReadResult) (cliOptions : Fields) :
    Except RexError JValue × List String :=
  loadConfigurationWith (fun g p cli => .ok (mergeConfigurations g p cli))
    globalRead projectRead cliOptions

/-! ## `setUtilityConfig(utilityName, key, value)`

Modelled as the pure transformation it applies to the project fragment before
persisting it with `saveProjectConfig`.  The guards `if (!currentConfig.utilities)`
and `if (!currentConfig.utilities[utilityName])` are JS falsiness tests; a
truthy non-object at either place (only possible with a hand-corrupted config
file) would make the source fault on property assignment and is modelled as
leaving the fragment unchanged. -/
def setUtilityConfig (project : Fields) (utilityName key : String) (value : JValue) : Fields :=
  let utilities : JValue :=
    match getKey project "utilities" with
    | some u => if jFalsy u then .vObj [] else u
    | none => .vObj []
  match utilities with
  | .vObj ufs =>
      let scopeVal : JValue :=
        match getKey ufs utilityName with
        | some s => if jFalsy s then .vObj [] else s
        | none => .vObj []
      match scopeVal with
      | .vObj sfs =>
          match value with
          | .vUndef =>
              let sfs2 := delKey sfs key
              let ufs2 :=
                if sfs2.isEmpty then delKey ufs utilityName
                else setKey ufs utilityName (.vObj sfs2)
              if ufs2.isEmpty then delKey project "utilities"
              else setKey project "utilities" (.vObj ufs2)
          | v => setKey project "utilities" (.vObj (setKey ufs utilityName (.vObj (setKey sfs key v))))
      | _ => project
  | _ => project

/-! ## CacheManager (`src/CacheManager.js`)

`calculateFileHash` reads the file with `fs.readFile(filePath, 'utf8')` — i.e.
it decodes the raw bytes as UTF-8 (WHATWG lossy decoding: every maximal invalid
subpart becomes U+FFFD) and hashes the resulting text, not the raw bytes.  The
decoder below is that standard algorithm on byte lists (values 0..255),
producing the list of decoded code points.  The SHA-256 digest itself is kept
abstract as a function from decoded text to hex string, since every claim about
it factors through this decoding. -/

/-- WHATWG UTF-8 lossy decoding of a byte list to code points, as performed by
`Buffer.toString('utf8')` in Node: invalid or truncated sequences decode to
U+FFFD (one replacement per maximal invalid subpart). -/
def utf8Lossy : List Nat → List Nat
  | [] => []
  | b :: rest =>
    if b < 0x80 then b :: utf8Lossy rest
    else if b < 0xC2 then 0xFFFD :: utf8Lossy rest
    else if b ≤ 0xDF then
      match rest with
      | [] => [0xFFFD]
      | c1 :: rest2 =>
          if 0x80 ≤ c1 ∧ c1 ≤ 0xBF then ((b - 0xC0) * 0x40 + (c1 - 0x80)) :: utf8Lossy rest2
          else 0xFFFD :: utf8Lossy (c1 :: rest2)
    else if b ≤ 0xEF then
      match rest with
      | [] => [0xFFFD]
      | c1 :: rest2 =>
          if (if b = 0xE0 then 0xA0 else 0x80) ≤ c1 ∧ c1 ≤ (if b = 0xED then 0x9F else 0xBF) then
            match rest2 with
            | [] => [0xFFFD]
            | c2 :: rest3 =>
                if 0x80 ≤ c2 ∧ c2 ≤ 0xBF then
                  ((b - 0xE0) * 0x1000 + (c1 - 0x80) * 0x40 + (c2 - 0x80)) :: utf8Lossy rest3
                else 0xFFFD :: utf8Lossy (c2 :: rest3)
          else 0xFFFD :: utf8Lossy (c1 :: rest2)
    else if b ≤ 0xF4 then
      match rest with
      | [] => [0xFFFD]
      | c1 :: rest2 =>
          if (if b = 0xF0 then 0x90 else 0x80) ≤ c1 ∧ c1 ≤ (if b = 0xF4 then 0x8F else 0xBF) then
            match rest2 with
            | [] => [0xFFFD]
            | c2 :: rest3 =>
                if 0x80 ≤ c2 ∧ c2 ≤ 0xBF then
                  match rest3 with
                  | [] => [0xFFFD]
                  | c3 :: rest4 =>
                      if 0x80 ≤ c3 ∧ c3 ≤ 0xBF then
                        ((b - 0xF0) * 0x40000 + (c1 - 0x80) * 0x1000 + (c2 - 0x80) * 0x40 +
                            (c3 - 0x80)) :: utf8Lossy rest4
                      else 0xFFFD :: utf8Lossy (c3 :: rest4)
                else 0xFFFD :: utf8Lossy (c2 :: rest3)
          else 0xFFFD :: utf8Lossy (c1 :: rest2)
    else 0xFFFD :: utf8Lossy rest

/-- `calculateFileHash(filePath)`: `digest` abstracts
`crypto.createHash('sha256').update(content).digest('hex')` over the decoded
text; `fsys` maps a path to its raw byte content (`none` = the read throws).
On a read failure the source logs a warning and returns `null` (the
"no fingerprint" sentinel), modelled as `none`. -/
def calculateFileHash (digest : List Nat → String) (fsys : String → Option (List Nat))
    (filePath : String) : Option String :=
  match fsys filePath with
  | some bytes => some (digest (utf8Lossy bytes))
  | none => none

/-- `hasFileChanged(filePath, hashCache)`: `if (!currentHash) return true;
return !cachedHash || cachedHash !== currentHash` (JS falsiness of a string is
the empty-string test). -/
def hasFileChanged (digest : List Nat → String) (fsys : String → Option (List Nat))
    (hashCache : List (String × String)) (filePath : String) : Bool :=
  match calculateFileHash digest fsys filePath with
  | none => true
  | some currentHash =>
      if currentHash = "" then true
      else
        match getKey hashCache filePath with
        | none => true
        | some cachedHash =>
            if cachedHash = "" then true else !(cachedHash == currentHash)

/-- Outcome of `fs.readJson(path, { throws: false })` as used by `loadCache`:
a mapping, `null` (the file parsed to nothing under `throws: false`), or a
rejected read (missing file or I/O error), which the surrounding `try` turns
into a warning and two empty caches. -/
inductive CacheRead (α : Type) where
  | ok (entries : α)
  | nullish
  | ioError (msg : String)

/-- `loadCache()`: hash cache then detection cache; any rejection empties both
and logs one warning; `null` results default to `{}` via `|| {}`. -/
def loadCache (hashRead : CacheRead (List (String × String)))
    (detectionRead : CacheRead Fields) :
    (List (String × String) × Fields) × List String :=
  match hashRead with
  | .ioError m => (([], []), ["警告：無法載入快取: " ++ m])
  | .ok h =>
      match detectionRead with
      | .ioError m => (([], []), ["警告：無法載入快取: " ++ m])
      | .ok d => ((h, d), [])
      | .nullish => ((h, []), [])
  | .nullish =>
      match detectionRead with
      | .ioError m => (([], []), ["警告：無法載入快取: " ++ m])
      | .ok d => (([], d), [])
      | .nullish => (([], []), [])

/-- The `for (const filePath of filePaths)` partition loop of `getChangedFiles`. -/
def partitionChanged (digest : List Nat → String) (fsys : String → Option (List Nat))
    (hashCache : List (String × String)) : List String → List String × List String
  | [] => ([], [])
  | p :: rest =>
      let (c, u) := partitionChanged digest fsys hashCache rest
      if hasFileChanged digest fsys hashCache p then (p :: c, u) else (c, p :: u)

/-- `getChangedFiles(filePaths)`: loads the persisted hash cache fresh, then
partitions the input paths with `hasFileChanged`. -/
def getChangedFiles (digest : List Nat → String) (fsys : String → Option (List Nat))
    (hashRead : CacheRead (List (String × String))) (detectionRead : CacheRead Fields)
    (filePaths : List String) : List String × List String :=
  let hashCache := (loadCache hashRead detectionRead).1.1
  partitionChanged digest fsys hashCache filePaths

/-! ## Observation helpers

`lookupPath` is the presence notion used to state the merge-precedence claims:
it follows a segment path through nested mappings only.  `noShadowB` says that
no proper prefix of a path hits a non-mapping value (a higher-priority fragment
with such a value "shadows" everything below it).  `nodupAlong` records that
the mapping at each level along the path has no duplicated keys — automatic
for anything deserialised from JSON, stated explicitly because the embedding
uses association lists. -/

def lookupPath : JValue → List String → Option JValue
  | v, [] => some v
  | .vObj fs, k :: rest =>
      match getKey fs k with
      | some v => lookupPath v rest
      | none => none
  | _, _ :: _ => none

def noShadowB : JValue → List String → Bool
  | _, [] => true
  | .vObj fs, k :: rest =>
      (match getKey fs k with
       | some u => noShadowB u rest
       | none => true)
  | _, _ :: _ => false

def containsKey : List (String × α) → String → Bool
  | [], _ => false
  | (k', _) :: rest, k => k' == k || containsKey rest k

def nodupKeysB : List (String × α) → Bool
  | [] => true
  | (k, _) :: rest => !(containsKey rest k) && nodupKeysB rest

def nodupAlong (v : JValue) : List String → Bool
  | [] => true
  | k :: rest =>
      match v with
      | .vObj fs =>
          nodupKeysB fs &&
            (match getKey fs k with
             | some u => nodupAlong u rest
             | none => true)
      | _ => true

/-! ## Association-list lemmas -/

theorem getKey_setKey_self (fs : List (String × α)) (k : String) (v : α) :
    getKey (setKey fs k v) k = some v := by
  induction fs with
  | nil => simp [getKey, setKey]
  | cons kv rest ih =>
      obtain ⟨k', v'⟩ := kv
      by_cases h : k' = k <;> simp [getKey, setKey, h, ih]

theorem getKey_setKey_ne (fs : List (String × α)) (k k' : String) (v : α) (h : k' ≠ k) :
    getKey (setKey fs k v) k' = getKey fs k' := by
  induction fs with
  | nil => simp [getKey, setKey, Ne.symm h]
  | cons kv rest ih =>
      obtain ⟨k0, v0⟩ := kv
      by_cases h0 : k0 = k
      · subst h0
        simp [getKey, setKey, Ne.symm h]
      · by_cases h1 : k0 = k' <;> simp [getKey, setKey, h0, h1, ih, h]

theorem getKey_delKey_self (fs : List (String × α)) (k : String) :
    getKey (delKey fs k) k = none := by
  induction fs with
  | nil => simp [getKey, delKey]
  | cons kv rest ih =>
      obtain ⟨k0, v0⟩ := kv
      by_cases h0 : k0 = k <;> simp [getKey, delKey, h0, ih]

theorem getKey_delKey_ne (fs : List (String × α)) (k k' : String) (h : k' ≠ k) :
    getKey (delKey fs k) k' = getKey fs k' := by
  induction fs with
  | nil => simp [delKey]
  | cons kv rest ih =>
      obtain ⟨k0, v0⟩ := kv
      by_cases h0 : k0 = k
      · subst h0
        simp [getKey, delKey, Ne.symm h, ih]
      · by_cases h1 : k0 = k' <;> simp [getKey, delKey, h0, h1, ih, h]

theorem setKey_ne_nil (fs : List (String × α)) (k : String) (v : α) :
    setKey fs k v ≠ [] := by
  cases fs with
  | nil => simp [setKey]
  | cons kv rest =>
      obtain ⟨k0, v0⟩ := kv
      by_cases h0 : k0 = k <;> simp [setKey, h0]

theorem getKey_some_ne_nil (fs : List (String × α)) (k : String) (v : α)
    (h : getKey fs k = some v) : fs ≠ [] := by
  cases fs with
  | nil => simp [getKey] at h
  | cons kv rest => simp

theorem getKey_none_of_not_containsKey (fs : List (String × α)) (k : String)
    (h : containsKey fs k = false) : getKey fs k = none := by
  induction fs with
  | nil => simp [getKey]
  | cons kv rest ih =>
      obtain ⟨k0, v0⟩ := kv
      simp [containsKey] at h
      simp [getKey, h.1, ih h.2]

theorem containsKey_false_of_getKey_none (fs : List (String × α)) (k : String)
    (h : getKey fs k = none) : containsKey fs k = false := by
  induction fs with
  | nil => simp [containsKey]
  | cons kv rest ih =>
      obtain ⟨k0, v0⟩ := kv
      by_cases h0 : k0 = k
      · simp [getKey, h0] at h
      · simp [getKey, h0] at h
        simp [containsKey, h0, ih h]

/-! ## Merge lemmas -/

theorem mergeFields_cons (tf acc : Fields) (k : String) (sv : JValue) (rest : Fields) :
    mergeFields tf acc ((k, sv) :: rest) =
      mergeFields tf (setKey acc k (mergeVal (getKey tf k) sv)) rest := by
  rw [mergeFields]

/-- Keys absent from the source are untouched by the merge loop. -/
theorem getKey_mergeFields_not_src (sf : Fields) (tf acc : Fields) (k : String)
    (h : containsKey sf k = false) :
    getKey (mergeFields tf acc sf) k = getKey acc k := by
  induction sf generalizing acc with
  | nil => rw [mergeFields]
  | cons kv rest ih =>
      obtain ⟨k0, v0⟩ := kv
      simp [containsKey] at h
      rw [mergeFields_cons, ih _ h.2, getKey_setKey_ne _ _ _ _ (fun hh => h.1 hh.symm)]

/-- A key present (once) in the source ends up with its merged value. -/
theorem getKey_mergeFields_src (sf : Fields) (tf acc : Fields) (k : String) (u : JValue)
    (hnd : nodupKeysB sf = true) (h : getKey sf k = some u) :
    getKey (mergeFields tf acc sf) k = some (mergeVal (getKey tf k) u) := by
  induction sf generalizing acc with
  | nil => simp [getKey] at h
  | cons kv rest ih =>
      obtain ⟨k0, v0⟩ := kv
      simp [nodupKeysB] at hnd
      by_cases h0 : k0 = k
      · subst h0
        simp [getKey] at h
        subst h
        rw [mergeFields_cons,
          getKey_mergeFields_not_src _ _ _ _ (by simpa using hnd.1),
          getKey_setKey_self]
      · simp [getKey, h0] at h
        rw [mergeFields_cons]
        exact ih _ hnd.2 h

/-- `deepMerge` on two plain objects is the field-wise merge loop. -/
theorem deepMerge_obj (tf sf : Fields) :
    deepMerge (.vObj tf) (.vObj sf) = .vObj (mergeFields tf tf sf) := rfl

/-- Inversion: a cons path only resolves through a plain object. -/
theorem lookupPath_cons_inv {v : JValue} {k : String} {rest : List String} {w : JValue}
    (h : lookupPath v (k :: rest) = some w) :
    ∃ fs u, v = .vObj fs ∧ getKey fs k = some u ∧ lookupPath u rest = some w := by
  cases v with
  | vObj fs =>
      cases hgk : getKey fs k with
      | none => simp [lookupPath, hgk] at h
      | some u =>
          refine ⟨fs, u, rfl, hgk, ?_⟩
          simpa [lookupPath, hgk] using h
  | vUndef => simp [lookupPath] at h
  | vNull => simp [lookupPath] at h
  | vBool b => simp [lookupPath] at h
  | vNum n => simp [lookupPath] at h
  | vStr st => simp [lookupPath] at h
  | vArr xs => simp [lookupPath] at h

/-- Inversion: an unshadowed cons path starts at a plain object. -/
theorem noShadowB_cons_inv {v : JValue} {k : String} {rest : List String}
    (h : noShadowB v (k :: rest) = true) :
    ∃ fs, v = .vObj fs ∧ ∀ u, getKey fs k = some u → noShadowB u rest = true := by
  cases v with
  | vObj fs =>
      refine ⟨fs, rfl, fun u hu => ?_⟩
      simpa [noShadowB, hu] using h
  | vUndef => simp [noShadowB] at h
  | vNull => simp [noShadowB] at h
  | vBool b => simp [noShadowB] at h
  | vNum n => simp [noShadowB] at h
  | vStr st => simp [noShadowB] at h
  | vArr xs => simp [noShadowB] at h

theorem mergeVal_of_src_nonobj {sv : JValue} (o : Option JValue) (h : isObject sv = false) :
    mergeVal o sv = sv := by
  cases o with
  | none => cases sv <;> simp [mergeVal]
  | some tv => cases tv <;> cases sv <;> simp_all [mergeVal, isObject]

theorem mergeVal_of_tgt_none (sv : JValue) : mergeVal none sv = sv := by
  cases sv <;> simp [mergeVal]

theorem mergeVal_of_tgt_nonobj {tv : JValue} (sv : JValue) (h : isObject tv = false) :
    mergeVal (some tv) sv = sv := by
  cases tv <;> cases sv <;> simp_all [mergeVal, isObject]

theorem mergeVal_obj_obj (tvf svf : Fields) :
    mergeVal (some (.vObj tvf)) (.vObj svf) = .vObj (mergeFields tvf tvf svf) := by
  simp [mergeVal]

theorem lookupPath_deepMerge_obj (tf sf : Fields) (ks : List String) :
    lookupPath (deepMerge (.vObj tf) (.vObj sf)) ks =
      lookupPath (.vObj (mergeFields tf tf sf)) ks := by
  rw [deepMerge_obj]

/-- `deepMerge` with an object source, the target kept symbolic. -/
theorem deepMerge_src_obj (t : JValue) (sf : Fields) :
    deepMerge t (.vObj sf) =
      .vObj (mergeFields (ownFields (unfalsy t)) (ownFields (unfalsy t)) sf) := rfl

/-- A non-empty path that resolves in the higher-priority side `s` to a
non-mapping leaf keeps exactly that value in the merge, whatever `t` holds. -/
theorem lookupPath_deepMerge_src (ks : List String) :
    ∀ (k : String) (t s w : JValue), nodupAlong s (k :: ks) = true →
      lookupPath s (k :: ks) = some w → isObject w = false →
      lookupPath (deepMerge t s) (k :: ks) = some w := by
  induction ks with
  | nil =>
      intro k t s w hnd hs hw
      obtain ⟨sf, u, rfl, hgk, hu⟩ := lookupPath_cons_inv hs
      simp only [lookupPath] at hu
      obtain rfl : u = w := by simpa using hu
      simp only [nodupAlong, Bool.and_eq_true] at hnd
      have hslot := getKey_mergeFields_src sf (ownFields (unfalsy t))
        (ownFields (unfalsy t)) k u hnd.1 hgk
      rw [mergeVal_of_src_nonobj _ hw] at hslot
      rw [deepMerge_src_obj]
      simp [lookupPath, hslot]
  | cons r rs ih =>
      intro k t s w hnd hs hw
      obtain ⟨sf, u, rfl, hgk, hu⟩ := lookupPath_cons_inv hs
      simp only [nodupAlong, hgk, Bool.and_eq_true] at hnd
      have hslot := getKey_mergeFields_src sf (ownFields (unfalsy t))
        (ownFields (unfalsy t)) k u hnd.1 hgk
      have hmv : lookupPath (mergeVal (getKey (ownFields (unfalsy t)) k) u) (r :: rs) =
          some w := by
        cases hg : getKey (ownFields (unfalsy t)) k with
        | none => rw [mergeVal_of_tgt_none]; exact hu
        | some tv =>
            by_cases htv : isObject tv
            · obtain ⟨tvf, rfl⟩ : ∃ tvf, tv = .vObj tvf := by
                cases tv <;> simp_all [isObject]
              by_cases hob : isObject u
              · obtain ⟨uf, rfl⟩ : ∃ uf, u = .vObj uf := by
                  cases u <;> simp_all [isObject]
                have := ih r (.vObj tvf) (.vObj uf) w hnd.2 hu hw
                rw [deepMerge_obj] at this
                rw [mergeVal_obj_obj]
                exact this
              · rw [mergeVal_of_src_nonobj _ (by simpa using hob)]
                exact hu
            · rw [mergeVal_of_tgt_nonobj _ (by simpa using htv)]
              exact hu
      rw [deepMerge_src_obj]
      simp [lookupPath, hslot, hmv]

/-- A path that resolves in the lower-priority side `t`, is absent from the
higher-priority side `s`, and is not shadowed by a non-mapping ancestor in `s`,
keeps `t`'s value in the merge. -/
theorem lookupPath_deepMerge_target (ks : List String) :
    ∀ (k : String) (t s w : JValue), nodupAlong s (k :: ks) = true →
      lookupPath t (k :: ks) = some w → lookupPath s (k :: ks) = none →
      noShadowB s (k :: ks) = true →
      lookupPath (deepMerge t s) (k :: ks) = some w := by
  induction ks with
  | nil =>
      intro k t s w hnd ht hs hsh
      obtain ⟨tf, tv, rfl, hgt, htv⟩ := lookupPath_cons_inv ht
      simp only [lookupPath] at htv
      obtain rfl : tv = w := by simpa using htv
      obtain ⟨sf, rfl, _⟩ := noShadowB_cons_inv hsh
      cases hgk : getKey sf k with
      | some u => simp [lookupPath, hgk] at hs
      | none =>
          have hnc := containsKey_false_of_getKey_none sf k hgk
          have hslot := getKey_mergeFields_not_src sf tf tf k hnc
          rw [deepMerge_obj]
          simp [lookupPath, hslot, hgt]
  | cons r rs ih =>
      intro k t s w hnd ht hs hsh
      obtain ⟨tf, tv, rfl, hgt, htv⟩ := lookupPath_cons_inv ht
      obtain ⟨sf, rfl, hshk⟩ := noShadowB_cons_inv hsh
      rw [deepMerge_obj]
      cases hgk : getKey sf k with
      | none =>
          have hnc := containsKey_false_of_getKey_none sf k hgk
          have hslot := getKey_mergeFields_not_src sf tf tf k hnc
          simp [lookupPath, hslot, hgt, htv]
      | some u =>
          simp only [lookupPath, hgk] at hs
          simp only [nodupAlong, hgk, Bool.and_eq_true] at hnd
          have hshu := hshk u hgk
          obtain ⟨uf, rfl, _⟩ := noShadowB_cons_inv hshu
          obtain ⟨tvf, tv2, rfl, _, _⟩ := lookupPath_cons_inv htv
          have hslot := getKey_mergeFields_src sf tf tf k (.vObj uf) hnd.1 hgk
          rw [hgt, mergeVal_obj_obj] at hslot
          have := ih r (.vObj tvf) (.vObj uf) w (by simpa [nodupAlong] using hnd.2) htv hs hshu
          rw [deepMerge_obj] at this
          simpa [lookupPath, hslot] using this

/-- `_getNestedValue`'s walk agrees with `lookupPath` wherever the latter
resolves. -/
theorem getNestedGo_of_lookupPath (ks : List String) :
    ∀ (v w d : JValue), lookupPath v ks = some w → getNestedGo v d ks = w := by
  induction ks with
  | nil =>
      intro v w d h
      simp only [lookupPath] at h
      obtain rfl : v = w := by simpa using h
      simp [getNestedGo]
  | cons k rest ih =>
      intro v w d h
      obtain ⟨fs, u, rfl, hgk, hu⟩ := lookupPath_cons_inv h
      simp [getNestedGo, stepIn, hgk, ih u w d hu]

/-! ## Claim C1 — merge precedence -/

/-- C1, counterexample to the claim as stated: with global `{a:{b:1}}`, project
`{a:{b:2}}` and override `{a:7}`, the dotted key path `a.b` is present in two
fragments (global and project) and absent from the override, so the claim
requires `get('a.b')` to return the project fragment's value `2`; the code
instead lets the override's scalar `a` replace the whole nested mapping, and
`get('a.b')` returns the default (`undefined`). -/
theorem mergePrecedence_counterexample :
    getNestedValue
        (mergeConfigurations (.vObj [("a", .vObj [("b", .vNum 1)])])
          (.vObj [("a", .vObj [("b", .vNum 2)])]) [("a", .vNum 7)])
        "a.b" .vUndef = .vUndef
    ∧ lookupPath (.vObj [("a", .vObj [("b", .vNum 1)])]) ["a", "b"] = some (.vNum 1)
    ∧ lookupPath (.vObj [("a", .vObj [("b", .vNum 2)])]) ["a", "b"] = some (.vNum 2)
    ∧ lookupPath (.vObj (sanitizeCliOptions [("a", .vNum 7)])) ["a", "b"] = none
    ∧ splitPath "a.b" = ["a", "b"] := by
  refine ⟨?_, rfl, rfl, rfl, rfl⟩
  have h : mergeConfigurations (.vObj [("a", .vObj [("b", .vNum 1)])])
      (.vObj [("a", .vObj [("b", .vNum 2)])]) [("a", .vNum 7)] = .vObj [("a", .vNum 7)] := by
    simp [mergeConfigurations, deepMerge, mergeFields, mergeVal, setKey, getKey, ownFields,
      unfalsy, jFalsy, sanitizeCliOptions, isUndef]
  rw [h]
  rfl

/-- C1 (amended): after a successful load, for every dotted key path that
resolves through nested mappings to a non-mapping leaf in some fragment, and
such that no higher-priority fragment lacking the path replaces a proper
ancestor of it by a non-mapping value, `get` returns the override fragment's
value when the path is present in the (undefined-stripped) override fragment,
otherwise the project fragment's value when present there, otherwise the
global fragment's value.  (`nodupAlong` merely records that JS objects cannot
carry duplicate keys.) -/
theorem mergePrecedence (g p cli : Fields) (kp : String) (k : String) (ks : List String)
    (w d : JValue) (mf : Fields) (gc pc : Option JValue)
    (hsplit : splitPath kp = k :: ks)
    (hleaf : isObject w = false)
    (hndp : nodupAlong (.vObj p) (k :: ks) = true)
    (hndo : nodupAlong (.vObj (sanitizeCliOptions cli)) (k :: ks) = true)
    (hwin :
      lookupPath (.vObj (sanitizeCliOptions cli)) (k :: ks) = some w
      ∨ (lookupPath (.vObj (sanitizeCliOptions cli)) (k :: ks) = none
          ∧ noShadowB (.vObj (sanitizeCliOptions cli)) (k :: ks) = true
          ∧ lookupPath (.vObj p) (k :: ks) = some w)
      ∨ (lookupPath (.vObj (sanitizeCliOptions cli)) (k :: ks) = none
          ∧ noShadowB (.vObj (sanitizeCliOptions cli)) (k :: ks) = true
          ∧ lookupPath (.vObj p) (k :: ks) = none
          ∧ noShadowB (.vObj p) (k :: ks) = true
          ∧ lookupPath (.vObj g) (k :: ks) = some w))
    (hmf : mergeConfigurations (.vObj g) (.vObj p) cli = .vObj mf) :
    getNestedValue (mergeConfigurations (.vObj g) (.vObj p) cli) kp d = w
    ∧ ConfigurationManager.get ⟨gc, pc, some mf⟩ kp d = .ok w := by
  have hmain : lookupPath (mergeConfigurations (.vObj g) (.vObj p) cli) (k :: ks) = some w := by
    rcases hwin with hov | ⟨hno, hsh, hpr⟩ | ⟨hno, hsh, hnp, hshp, hgl⟩
    · exact lookupPath_deepMerge_src ks k _ _ w hndo hov hleaf
    · have h1 : lookupPath (deepMerge (.vObj g) (.vObj p)) (k :: ks) = some w :=
        lookupPath_deepMerge_src ks k _ _ w hndp hpr hleaf
      exact lookupPath_deepMerge_target ks k _ _ w hndo h1 hno hsh
    · have h1 : lookupPath (deepMerge (.vObj g) (.vObj p)) (k :: ks) = some w :=
        lookupPath_deepMerge_target ks k _ _ w hndp hgl hnp hshp
      exact lookupPath_deepMerge_target ks k _ _ w hndo h1 hno hsh
  have hget : getNestedValue (mergeConfigurations (.vObj g) (.vObj p) cli) kp d = w := by
    rw [getNestedValue, hsplit]
    exact getNestedGo_of_lookupPath _ _ _ _ hmain
  refine ⟨hget, ?_⟩
  show Except.ok (getNestedValue (.vObj mf) kp d) = .ok w
  rw [← hmf, hget]

/-- C1 witness: global `{a:1, c:9}`, project `{a:2, b:{x:5}}`, override `{a:3}`
— `get('a')` returns the override's `3`, `get('b.x')` the project's `5`,
`get('c')` the global's `9`. -/
theorem mergePrecedence_witness :
    getNestedValue
        (mergeConfigurations (.vObj [("a", .vNum 1), ("c", .vNum 9)])
          (.vObj [("a", .vNum 2), ("b", .vObj [("x", .vNum 5)])]) [("a", .vNum 3)])
        "a" .vUndef = .vNum 3
    ∧ getNestedValue
        (mergeConfigurations (.vObj [("a", .vNum 1), ("c", .vNum 9)])
          (.vObj [("a", .vNum 2), ("b", .vObj [("x", .vNum 5)])]) [("a", .vNum 3)])
        "b.x" .vUndef = .vNum 5
    ∧ getNestedValue
        (mergeConfigurations (.vObj [("a", .vNum 1), ("c", .vNum 9)])
          (.vObj [("a", .vNum 2), ("b", .vObj [("x", .vNum 5)])]) [("a", .vNum 3)])
        "c" .vUndef = .vNum 9 := by
  have hobj : ∀ cli, ∃ mf, mergeConfigurations (.vObj [("a", .vNum 1), ("c", .vNum 9)])
      (.vObj [("a", .vNum 2), ("b", .vObj [("x", .vNum 5)])]) cli = .vObj mf := by
    intro cli
    exact ⟨_, rfl⟩
  obtain ⟨mf, hmf⟩ := hobj [("a", .vNum 3)]
  refine ⟨?_, ?_, ?_⟩
  · exact (mergePrecedence [("a", .vNum 1), ("c", .vNum 9)]
      [("a", .vNum 2), ("b", .vObj [("x", .vNum 5)])] [("a", .vNum 3)] "a" "a" []
      (.vNum 3) .vUndef mf none none rfl rfl rfl rfl (Or.inl rfl) hmf).1
  · exact (mergePrecedence [("a", .vNum 1), ("c", .vNum 9)]
      [("a", .vNum 2), ("b", .vObj [("x", .vNum 5)])] [("a", .vNum 3)] "b.x" "b" ["x"]
      (.vNum 5) .vUndef mf none none rfl rfl rfl rfl
      (Or.inr (Or.inl ⟨rfl, rfl, rfl⟩)) hmf).1
  · exact (mergePrecedence [("a", .vNum 1), ("c", .vNum 9)]
      [("a", .vNum 2), ("b", .vObj [("x", .vNum 5)])] [("a", .vNum 3)] "c" "c" []
      (.vNum 9) .vUndef mf none none rfl rfl rfl rfl
      (Or.inr (Or.inr ⟨rfl, rfl, rfl, rfl, rfl⟩)) hmf).1

/-! ## Claim C2 — pairwise recursive merge -/

/-- C2: for fragments A (lower priority) and B (higher priority) and a key
present in B, the merged value at that key is the recursive merge when both
sides hold nested mappings, and B's value outright in every other case
(arrays, scalars, null, or a mapping on only one side). -/
theorem deepMerge_key (af bf : Fields) (k : String) (bv : JValue)
    (hnd : nodupKeysB bf = true) (hb : getKey bf k = some bv) :
    ∃ mf, deepMerge (.vObj af) (.vObj bf) = .vObj mf ∧
      getKey mf k =
        some (match getKey af k, bv with
          | some (.vObj avf), .vObj bvf => deepMerge (.vObj avf) (.vObj bvf)
          | _, _ => bv) := by
  refine ⟨mergeFields af af bf, deepMerge_obj af bf, ?_⟩
  have hslot := getKey_mergeFields_src bf af af k bv hnd hb
  rw [hslot]
  cases hga : getKey af k with
  | none => cases bv <;> simp [mergeVal]
  | some av => cases av <;> cases bv <;> simp [mergeVal, deepMerge_obj]

/-- C2 witness: B's nested mapping at `m` merges field-by-field with A's,
while B's array at `l` replaces A's array outright. -/
theorem deepMerge_key_witness :
    (∃ mf, deepMerge (.vObj [("m", .vObj [("x", .vNum 1)])])
        (.vObj [("m", .vObj [("y", .vNum 2)]), ("l", .vArr [.vNum 4])]) = .vObj mf ∧
      getKey mf "m" = some (deepMerge (.vObj [("x", .vNum 1)]) (.vObj [("y", .vNum 2)])))
    ∧ (∃ mf, deepMerge (.vObj [("l", .vArr [.vNum 3, .vNum 5])])
        (.vObj [("m", .vObj [("y", .vNum 2)]), ("l", .vArr [.vNum 4])]) = .vObj mf ∧
      getKey mf "l" = some (.vArr [.vNum 4])) := by
  constructor
  · exact deepMerge_key [("m", .vObj [("x", .vNum 1)])]
      [("m", .vObj [("y", .vNum 2)]), ("l", .vArr [.vNum 4])] "m" (.vObj [("y", .vNum 2)])
      rfl rfl
  · exact deepMerge_key [("l", .vArr [.vNum 3, .vNum 5])]
      [("m", .vObj [("y", .vNum 2)]), ("l", .vArr [.vNum 4])] "l" (.vArr [.vNum 4])
      rfl rfl

/-! ## Claim C3 — the "not loaded" gate -/

/-- C3, counterexample to the claim as stated: the not-loaded failure of `get`
carries the `ValidationError` kind — the very same kind `validateRequiredConfig`
uses for missing required keys — not a distinct `NotLoadedError` kind (no such
class exists in `src/errors.js`). -/
theorem notLoaded_kind_counterexample :
    (ConfigurationManager.get ConfigurationManager.init "a" .vUndef =
      .error ⟨.validationError, notLoadedMessage⟩)
    ∧ (ConfigurationManager.validateRequiredConfig ⟨none, none, some []⟩ ["x"] =
      .error ⟨.validationError, "Missing required configuration: x"⟩) := by
  constructor
  · rfl
  · rfl

/-- C3 (amended): on a Resolver never loaded (or reset), each of `get`,
`getAll` and `validateRequiredConfig` fails with a `ValidationError` carrying
the fixed not-loaded message — the same error kind used for missing required
keys, distinguished only by its message — and `reset` restores exactly this
not-loaded state. -/
theorem notLoaded_gate (m m2 : ConfigurationManager) (key : String) (d : JValue)
    (keys : List String) (h : m.mergedConfig = none) :
    m.get key d = .error ⟨.validationError, notLoadedMessage⟩
    ∧ m.getAll = .error ⟨.validationError, notLoadedMessage⟩
    ∧ m.validateRequiredConfig keys = .error ⟨.validationError, notLoadedMessage⟩
    ∧ (ConfigurationManager.reset m2).mergedConfig = none
    ∧ ConfigurationManager.init.mergedConfig = none := by
  refine ⟨?_, ?_, ?_, rfl, rfl⟩
  · rw [ConfigurationManager.get, h]
  · rw [ConfigurationManager.getAll, h]
  · rw [ConfigurationManager.validateRequiredConfig, h]

/-- C3 witness: the gate at a freshly constructed manager. -/
theorem notLoaded_gate_witness :
    ConfigurationManager.get ConfigurationManager.init "deploy.targetUtility" .vUndef =
      .error ⟨.validationError, notLoadedMessage⟩
    ∧ ConfigurationManager.getAll ConfigurationManager.init =
      .error ⟨.validationError, notLoadedMessage⟩
    ∧ ConfigurationManager.validateRequiredConfig ConfigurationManager.init ["k"] =
      .error ⟨.validationError, notLoadedMessage⟩ :=
  ⟨(notLoaded_gate ConfigurationManager.init ConfigurationManager.init
      "deploy.targetUtility" (JValue.vUndef) ["k"] rfl).1,
   (notLoaded_gate ConfigurationManager.init ConfigurationManager.init
      "deploy.targetUtility" (JValue.vUndef) ["k"] rfl).2.1,
   (notLoaded_gate ConfigurationManager.init ConfigurationManager.init
      "deploy.targetUtility" (JValue.vUndef) ["k"] rfl).2.2.1⟩

/-! ## Claim C4 — load tolerates read failures, wraps merge failures -/

/-- C4: `loadConfiguration` never fails because of a missing, malformed or
unreadable global/project fragment — each such read yields an empty fragment
(with a non-fatal warning exactly for the unreadable case) and the load
succeeds; only a throwing merge step is surfaced, wrapped so that the thrown
message contains the original failure's message. -/
theorem loadConfiguration_read_tolerant
    (globalRead projectRead : ReadResult) (cli : Fields)
    (mergeStep : JValue → JValue → Fields → Except String JValue) (msg : String)
    (hthrow : mergeStep (loadGlobalConfig globalRead).1 (loadProjectConfig projectRead).1 cli =
      .error msg) :
    (∀ rg rp c, ∃ merged, (loadConfiguration rg rp c).1 = .ok merged)
    ∧ (∀ m, loadGlobalConfig (.failure m) =
        (.vObj [], ["Warning: Could not load global config: " ++ m]))
    ∧ (∀ m, loadProjectConfig (.failure m) =
        (.vObj [], ["Warning: Could not load project config: " ++ m]))
    ∧ loadGlobalConfig .missing = (.vObj [], [])
    ∧ loadProjectConfig .missing = (.vObj [], [])
    ∧ (∃ e, (loadConfigurationWith mergeStep globalRead projectRead cli).1 = .error e
        ∧ e.kind = .fileSystemError
        ∧ ∃ pre post, e.message = pre ++ (msg ++ post)) := by
  refine ⟨?_, fun m => rfl, fun m => rfl, rfl, rfl, ?_⟩
  · intro rg rp c
    exact ⟨_, rfl⟩
  · refine ⟨⟨.fileSystemError,
      fileSystemErrorMessage ("Failed to load configuration: " ++ msg) "undefined" none⟩,
      ?_, rfl, "Failed to Failed to load configuration: ", " 'undefined': Unknown error", ?_⟩
    · rcases hG : loadGlobalConfig globalRead with ⟨g, w1⟩
      rcases hP : loadProjectConfig projectRead with ⟨p, w2⟩
      rw [hG, hP] at hthrow
      simp only at hthrow
      simp only [loadConfigurationWith, hG, hP, hthrow]
    · simp only [fileSystemErrorMessage, Option.getD, String.append_assoc]
      rw [← String.append_assoc]
      rfl

/-- C4 witness: corrupt global storage and missing project storage still load
(to the CLI options alone), and an injected merge failure surfaces wrapped. -/
theorem loadConfiguration_read_tolerant_witness :
    (∃ merged, (loadConfiguration (.failure "oops") .missing [("a", .vNum 1)]).1 = .ok merged)
    ∧ (∃ e, (loadConfigurationWith (fun _ _ _ => .error "boom") (.failure "oops") .missing
        [("a", .vNum 1)]).1 = .error e
        ∧ e.kind = .fileSystemError
        ∧ ∃ pre post, e.message = pre ++ ("boom" ++ post)) := by
  have h := loadConfiguration_read_tolerant (.failure "oops") .missing [("a", .vNum 1)]
    (fun _ _ _ => .error "boom") "boom" rfl
  exact ⟨h.1 (.failure "oops") .missing [("a", .vNum 1)], h.2.2.2.2.2⟩

/-! ## Claim C5 — validateRequired -/

/-- C5: on a loaded Resolver, `validateRequiredConfig` fails iff some requested
path resolves to `undefined` via `get`, the error enumerates every missing
path (joined exactly as the full filtered list), and with nothing missing it
returns cleanly; being a pure query, it leaves the merged configuration
untouched. -/
theorem validateRequired_spec (m : ConfigurationManager) (cfg : Fields)
    (keys : List String) (h : m.mergedConfig = some cfg) :
    ((∃ e, m.validateRequiredConfig keys = .error e) ↔
      ∃ k ∈ keys, isUndef (getNestedValue (.vObj cfg) k .vUndef) = true)
    ∧ (∀ miss, miss = keys.filter (fun k => isUndef (getNestedValue (.vObj cfg) k .vUndef)) →
        miss ≠ [] →
        m.validateRequiredConfig keys =
          .error ⟨.validationError,
            "Missing required configuration: " ++ String.intercalate ", " miss⟩)
    ∧ ((keys.filter (fun k => isUndef (getNestedValue (.vObj cfg) k .vUndef))) = [] →
        m.validateRequiredConfig keys = .ok ()) := by
  have hval : m.validateRequiredConfig keys =
      (if (keys.filter (fun k => isUndef (getNestedValue (.vObj cfg) k .vUndef))).length > 0 then
        .error ⟨.validationError, "Missing required configuration: " ++
          String.intercalate ", "
            (keys.filter (fun k => isUndef (getNestedValue (.vObj cfg) k .vUndef)))⟩
      else .ok ()) := by
    rw [ConfigurationManager.validateRequiredConfig, h]
  refine ⟨?_, ?_, ?_⟩
  · constructor
    · rintro ⟨e, he⟩
      rw [hval] at he
      by_cases hlen :
          (keys.filter (fun k => isUndef (getNestedValue (.vObj cfg) k .vUndef))).length > 0
      · have hne : (keys.filter (fun k => isUndef (getNestedValue (.vObj cfg) k .vUndef))) ≠ [] := by
          intro hnil
          rw [hnil] at hlen
          simp at hlen
        obtain ⟨x, hx⟩ := List.exists_mem_of_ne_nil _ hne
        have := List.mem_filter.mp hx
        exact ⟨x, this.1, this.2⟩
      · rw [if_neg hlen] at he
        cases he
    · rintro ⟨k, hk, hmiss⟩
      have hmem : k ∈ keys.filter (fun k => isUndef (getNestedValue (.vObj cfg) k .vUndef)) :=
        List.mem_filter.mpr ⟨hk, hmiss⟩
      have hlen : (keys.filter (fun k => isUndef (getNestedValue (.vObj cfg) k .vUndef))).length > 0 :=
        List.length_pos.mpr (List.ne_nil_of_mem hmem)
      rw [hval, if_pos hlen]
      exact ⟨_, rfl⟩
  · rintro miss rfl hne
    have hlen : (keys.filter (fun k => isUndef (getNestedValue (.vObj cfg) k .vUndef))).length > 0 :=
      List.length_pos.mpr hne
    rw [hval, if_pos hlen]
  · intro hnil
    rw [hval, hnil]
    simp

/-- C5 witness: with merged configuration `{required:{option:'x'}}`,
validating `['required.option']` succeeds while validating
`['required.option','missing.option','also.gone']` fails listing exactly the
two missing paths. -/
theorem validateRequired_spec_witness :
    ConfigurationManager.validateRequiredConfig
        ⟨none, none, some [("required", .vObj [("option", .vStr "x")])]⟩
        ["required.option"] = .ok ()
    ∧ ConfigurationManager.validateRequiredConfig
        ⟨none, none, some [("required", .vObj [("option", .vStr "x")])]⟩
        ["required.option", "missing.option", "also.gone"] =
      .error ⟨.validationError,
        "Missing required configuration: missing.option, also.gone"⟩ := by
  constructor
  · exact (validateRequired_spec ⟨none, none, some [("required", .vObj [("option", .vStr "x")])]⟩
      [("required", .vObj [("option", .vStr "x")])] ["required.option"] rfl).2.2 rfl
  · have h := (validateRequired_spec ⟨none, none, some [("required", .vObj [("option", .vStr "x")])]⟩
      [("required", .vObj [("option", .vStr "x")])]
      ["required.option", "missing.option", "also.gone"] rfl).2.1
      ["missing.option", "also.gone"] rfl (by simp)
    exact h

/-! ## Claim C6 — utility-scoped unset prunes empty containers -/

/-- C6: with the project fragment holding a mapping at `utilities.<scope>`,
`setUtilityConfig(scope, key, undefined)` deletes `key` from that mapping,
prunes `utilities.<scope>` exactly when it thereby becomes empty, prunes the
top-level `utilities` mapping exactly when it thereby becomes empty, and keeps
every sibling `utilities.<other>` entry intact. -/
theorem setUtilityConfig_unset (project ufs sfs : Fields) (scope key other : String)
    (w : JValue)
    (hU : getKey project "utilities" = some (.vObj ufs))
    (hS : getKey ufs scope = some (.vObj sfs))
    (hOther : other ≠ scope) :
    (lookupPath (.vObj (setUtilityConfig project scope key .vUndef))
        ["utilities", scope, key] = none)
    ∧ (delKey sfs key = [] →
        lookupPath (.vObj (setUtilityConfig project scope key .vUndef))
          ["utilities", scope] = none)
    ∧ (delKey sfs key ≠ [] →
        lookupPath (.vObj (setUtilityConfig project scope key .vUndef))
          ["utilities", scope] = some (.vObj (delKey sfs key)))
    ∧ (getKey ufs other = some w →
        lookupPath (.vObj (setUtilityConfig project scope key .vUndef))
          ["utilities", other] = some w)
    ∧ (delKey sfs key = [] → delKey ufs scope = [] →
        lookupPath (.vObj (setUtilityConfig project scope key .vUndef))
          ["utilities"] = none) := by
  have hrun : setUtilityConfig project scope key .vUndef =
      (if (delKey sfs key).isEmpty then
        (if (delKey ufs scope).isEmpty then delKey project "utilities"
         else setKey project "utilities" (.vObj (delKey ufs scope)))
       else
        (if (setKey ufs scope (.vObj (delKey sfs key))).isEmpty then delKey project "utilities"
         else setKey project "utilities" (.vObj (setKey ufs scope (.vObj (delKey sfs key)))))) := by
    simp [setUtilityConfig, hU, hS, jFalsy]
    by_cases h1 : (delKey sfs key).isEmpty = true
    · have e : (if (delKey sfs key).isEmpty = true then delKey ufs scope
          else setKey ufs scope (JValue.vObj (delKey sfs key))) = delKey ufs scope := if_pos h1
      rw [e, if_pos h1]
    · have e : (if (delKey sfs key).isEmpty = true then delKey ufs scope
          else setKey ufs scope (JValue.vObj (delKey sfs key))) =
            setKey ufs scope (JValue.vObj (delKey sfs key)) := if_neg h1
      rw [e, if_neg h1]
  refine ⟨?_, ?_, ?_, ?_, ?_⟩
  · by_cases h1 : delKey sfs key = []
    · rw [hrun]
      simp only [h1, List.isEmpty_nil, if_true]
      by_cases h2 : delKey ufs scope = []
      · simp [h2, lookupPath, getKey_delKey_self]
      · have h2e : (delKey ufs scope).isEmpty = false := by
          simpa [List.isEmpty_iff] using h2
        simp [h2e, lookupPath, getKey_setKey_self, getKey_delKey_self]
    · have h1e : (delKey sfs key).isEmpty = false := by
        simpa [List.isEmpty_iff] using h1
      have h2e : (setKey ufs scope (.vObj (delKey sfs key))).isEmpty = false := by
        cases hh : setKey ufs scope (.vObj (delKey sfs key)) with
        | nil => exact absurd hh (setKey_ne_nil _ _ _)
        | cons a l => simp
      rw [hrun]
      simp [h1e, h2e, lookupPath, getKey_setKey_self, getKey_delKey_self]
  · intro h1
    rw [hrun]
    simp only [h1, List.isEmpty_nil, if_true]
    by_cases h2 : delKey ufs scope = []
    · simp [h2, lookupPath, getKey_delKey_self]
    · have h2e : (delKey ufs scope).isEmpty = false := by
        simpa [List.isEmpty_iff] using h2
      simp [h2e, lookupPath, getKey_setKey_self, getKey_delKey_self]
  · intro h1
    have h1e : (delKey sfs key).isEmpty = false := by
      simpa [List.isEmpty_iff] using h1
    have h2e : (setKey ufs scope (.vObj (delKey sfs key))).isEmpty = false := by
      cases hh : setKey ufs scope (.vObj (delKey sfs key)) with
      | nil => exact absurd hh (setKey_ne_nil _ _ _)
      | cons a l => simp
    rw [hrun]
    simp [h1e, h2e, lookupPath, getKey_setKey_self]
  · intro hw
    have hne : getKey (delKey ufs scope) other = some w := by
      rw [getKey_delKey_ne _ _ _ hOther]
      exact hw
    by_cases h1 : delKey sfs key = []
    · have h2 : delKey ufs scope ≠ [] := getKey_some_ne_nil _ _ _ hne
      have h2e : (delKey ufs scope).isEmpty = false := by
        simpa [List.isEmpty_iff] using h2
      rw [hrun]
      simp [h1, h2e, lookupPath, getKey_setKey_self, hne]
    · have h1e : (delKey sfs key).isEmpty = false := by
        simpa [List.isEmpty_iff] using h1
      have h2e : (setKey ufs scope (.vObj (delKey sfs key))).isEmpty = false := by
        cases hh : setKey ufs scope (.vObj (delKey sfs key)) with
        | nil => exact absurd hh (setKey_ne_nil _ _ _)
        | cons a l => simp
      rw [hrun]
      simp [h1e, h2e, lookupPath, getKey_setKey_self,
        getKey_setKey_ne _ _ _ _ hOther, hw]
  · intro h1 h2
    rw [hrun]
    simp [h1, h2, lookupPath, getKey_delKey_self]

/-- C6 witness: from `{utilities:{X:{k:1}, Y:{k2:2}}}`, unsetting `X.k` prunes
`utilities.X` while leaving `utilities.Y` intact; from `{utilities:{X:{k:1}}}`,
it prunes `utilities` entirely. -/
theorem setUtilityConfig_unset_witness :
    (lookupPath (.vObj (setUtilityConfig
        [("utilities", .vObj [("X", .vObj [("k", .vNum 1)]), ("Y", .vObj [("k2", .vNum 2)])])]
        "X" "k" .vUndef)) ["utilities", "X", "k"] = none)
    ∧ (lookupPath (.vObj (setUtilityConfig
        [("utilities", .vObj [("X", .vObj [("k", .vNum 1)]), ("Y", .vObj [("k2", .vNum 2)])])]
        "X" "k" .vUndef)) ["utilities", "X"] = none)
    ∧ (lookupPath (.vObj (setUtilityConfig
        [("utilities", .vObj [("X", .vObj [("k", .vNum 1)]), ("Y", .vObj [("k2", .vNum 2)])])]
        "X" "k" .vUndef)) ["utilities", "Y"] = some (.vObj [("k2", .vNum 2)]))
    ∧ (lookupPath (.vObj (setUtilityConfig [("utilities", .vObj [("X", .vObj [("k", .vNum 1)])])]
        "X" "k" .vUndef)) ["utilities"] = none) := by
  have h1 := setUtilityConfig_unset
    [("utilities", .vObj [("X", .vObj [("k", .vNum 1)]), ("Y", .vObj [("k2", .vNum 2)])])]
    [("X", .vObj [("k", .vNum 1)]), ("Y", .vObj [("k2", .vNum 2)])] [("k", .vNum 1)]
    "X" "k" "Y" (.vObj [("k2", .vNum 2)]) rfl rfl (by decide)
  have h2 := setUtilityConfig_unset [("utilities", .vObj [("X", .vObj [("k", .vNum 1)])])]
    [("X", .vObj [("k", .vNum 1)])] [("k", .vNum 1)]
    "X" "k" "Y" .vUndef rfl rfl (by decide)
  exact ⟨h1.1, h1.2.1 rfl, h1.2.2.2.1 rfl, h2.2.2.2.2 rfl rfl⟩

/-! ## Claim C7 — hasChanged fail-open -/

/-- C7: `hasFileChanged` returns `true` whenever fingerprint computation yields
the "no fingerprint" sentinel (`null`), regardless of the cached mapping; when
computation succeeds, it returns `true` iff the mapping has no entry for the
path or the stored entry differs from the fresh fingerprint.  (The hypothesis
records that a SHA-256 hex digest is never the empty string, which JS would
treat as falsy.) -/
theorem hasFileChanged_spec (digest : List Nat → String) (fsys : String → Option (List Nat))
    (hashCache : List (String × String)) (filePath : String)
    (hne : ∀ s, calculateFileHash digest fsys filePath = some s → s ≠ "") :
    (calculateFileHash digest fsys filePath = none →
      hasFileChanged digest fsys hashCache filePath = true)
    ∧ (∀ cur, calculateFileHash digest fsys filePath = some cur →
        (hasFileChanged digest fsys hashCache filePath = true ↔
          ¬ getKey hashCache filePath = some cur)) := by
  constructor
  · intro h
    rw [hasFileChanged, h]
  · intro cur hcur
    have hcurne : cur ≠ "" := hne cur hcur
    rw [hasFileChanged, hcur]
    simp only [if_neg hcurne]
    cases hk : getKey hashCache filePath with
    | none => simp [hk]
    | some cached =>
        by_cases hc : cached = ""
        · subst hc
          simp [Ne.symm hcurne]
        · simp only [if_neg hc]
          by_cases he : cached = cur
          · subst he
            simp
          · simp [he]

/-- C7 witness: an unreadable file counts as changed even with a matching
cache entry; a readable file is changed iff its entry is absent or stale. -/
theorem hasFileChanged_spec_witness :
    hasFileChanged (fun _ => "d0") (fun _ => none) [("/f", "d0")] "/f" = true
    ∧ (hasFileChanged (fun _ => "d0") (fun _ => some [65]) [("/f", "d0")] "/f" = true ↔
        ¬ getKey [("/f", "d0")] "/f" = some "d0")
    ∧ hasFileChanged (fun _ => "d0") (fun _ => some [65]) [("/f", "d0")] "/f" = false
    ∧ hasFileChanged (fun _ => "d0") (fun _ => some [65]) [("/f", "stale")] "/f" = true
    ∧ hasFileChanged (fun _ => "d0") (fun _ => some [65]) [] "/f" = true := by
  refine ⟨?_, ?_, rfl, rfl, rfl⟩
  · exact (hasFileChanged_spec (fun _ => "d0") (fun _ => none) [("/f", "d0")] "/f"
      (by intro s hs; cases hs)).1 rfl
  · exact (hasFileChanged_spec (fun _ => "d0") (fun _ => some [65]) [("/f", "d0")] "/f"
      (by intro s hs; cases hs; decide)).2 "d0" rfl

/-! ## Claim C8 — the fingerprint is computed from decoded text, not raw bytes -/

/-- C8, counterexample to the claim as stated: `calculateFileHash` reads the
file with encoding `'utf8'`, so the digest is a function of the UTF-8-decoded
text, not of the raw bytes.  The one-byte files `0xFF` and `0xFE` differ in
their single byte yet both decode to one U+FFFD replacement character, so they
receive the same digest under every digest function — in particular under
SHA-256 — refuting "changing any one byte of a file's content changes its
digest" and "independent of text encoding". -/
theorem calculateFileHash_counterexample :
    utf8Lossy [0xFF] = utf8Lossy [0xFE]
    ∧ ([0xFF] : List Nat) ≠ [0xFE]
    ∧ calculateFileHash (fun cps => String.intercalate "," (cps.map (fun n => toString n)))
        (fun _ => some [0xFF]) "/f" =
      calculateFileHash (fun cps => String.intercalate "," (cps.map (fun n => toString n)))
        (fun _ => some [0xFE]) "/f" := by
  refine ⟨rfl, by decide, rfl⟩

/-- C8 (amended): the fingerprint is a digest of the file's UTF-8-decoded text
(invalid sequences replaced by U+FFFD), so two files with identical byte
content always receive the same digest — indeed any two whose decoded text
agrees do — and a byte change alters the digest exactly when it alters the
decoded text and the digest function separates the two texts (true of SHA-256
up to practically impossible collisions); it is not computed from the raw
bytes and not independent of text encoding. -/
theorem calculateFileHash_decoded_text (digest : List Nat → String)
    (fsys1 fsys2 : String → Option (List Nat)) (p1 p2 : String) (b1 b2 : List Nat)
    (h1 : fsys1 p1 = some b1) (h2 : fsys2 p2 = some b2) :
    (calculateFileHash digest fsys1 p1 = some (digest (utf8Lossy b1)))
    ∧ (utf8Lossy b1 = utf8Lossy b2 →
        calculateFileHash digest fsys1 p1 = calculateFileHash digest fsys2 p2)
    ∧ (digest (utf8Lossy b1) ≠ digest (utf8Lossy b2) →
        calculateFileHash digest fsys1 p1 ≠ calculateFileHash digest fsys2 p2) := by
  refine ⟨?_, ?_, ?_⟩
  · simp only [calculateFileHash, h1]
  · intro heq
    simp only [calculateFileHash, h1, h2, heq]
  · intro hne hcontra
    simp only [calculateFileHash, h1, h2] at hcontra
    exact hne (Option.some.inj hcontra)

/-- C8 witness: equal bytes give equal digests; bytes with distinct decodings
and separating digests give distinct fingerprints. -/
theorem calculateFileHash_decoded_text_witness :
    (calculateFileHash (fun cps => String.intercalate "," (cps.map (fun n => toString n)))
        (fun _ => some [65, 66]) "/a" =
      some ((fun cps => String.intercalate "," (cps.map (fun n => toString n)))
        (utf8Lossy [65, 66])))
    ∧ (calculateFileHash (fun cps => String.intercalate "," (cps.map (fun n => toString n)))
        (fun _ => some [65, 66]) "/a" =
      calculateFileHash (fun cps => String.intercalate "," (cps.map (fun n => toString n)))
        (fun _ => some [65, 66]) "/b")
    ∧ (calculateFileHash (fun cps => String.intercalate "," (cps.map (fun n => toString n)))
        (fun _ => some [65, 66]) "/a" ≠
      calculateFileHash (fun cps => String.intercalate "," (cps.map (fun n => toString n)))
        (fun _ => some [65, 67]) "/b") := by
  have h := calculateFileHash_decoded_text
    (fun cps => String.intercalate "," (cps.map (fun n => toString n)))
    (fun _ => some [65, 66]) (fun _ => some [65, 66]) "/a" "/b" [65, 66] [65, 66] rfl rfl
  have h2 := calculateFileHash_decoded_text
    (fun cps => String.intercalate "," (cps.map (fun n => toString n)))
    (fun _ => some [65, 66]) (fun _ => some [65, 67]) "/a" "/b" [65, 66] [65, 67] rfl rfl
  exact ⟨h.1, h.2.1 rfl, h2.2.2 (by decide)⟩

/-! ## Claim C9 — classify partitions by hasChanged, preserving order -/

theorem partitionChanged_eq_filter (digest : List Nat → String)
    (fsys : String → Option (List Nat)) (hashCache : List (String × String)) :
    ∀ paths : List String,
      partitionChanged digest fsys hashCache paths =
        (paths.filter (fun p => hasFileChanged digest fsys hashCache p),
         paths.filter (fun p => !(hasFileChanged digest fsys hashCache p))) := by
  intro paths
  induction paths with
  | nil => rfl
  | cons p rest ih =>
      rw [partitionChanged, ih]
      by_cases h : hasFileChanged digest fsys hashCache p <;> simp [h, List.filter]

/-- C9: `getChangedFiles` loads the persisted fingerprint mapping fresh and
partitions the input into `changed` and `unchanged` by `hasFileChanged`: each
output list is exactly the order-preserving filter of the input by the verdict,
and every input path lands in exactly one of the two lists. -/
theorem getChangedFiles_spec (digest : List Nat → String)
    (fsys : String → Option (List Nat)) (hashRead : CacheRead (List (String × String)))
    (detectionRead : CacheRead Fields) (paths : List String) :
    (getChangedFiles digest fsys hashRead detectionRead paths).1 =
      paths.filter (fun p =>
        hasFileChanged digest fsys (loadCache hashRead detectionRead).1.1 p)
    ∧ (getChangedFiles digest fsys hashRead detectionRead paths).2 =
      paths.filter (fun p =>
        !(hasFileChanged digest fsys (loadCache hashRead detectionRead).1.1 p))
    ∧ (∀ p ∈ paths,
        (p ∈ (getChangedFiles digest fsys hashRead detectionRead paths).1 ∧
          p ∉ (getChangedFiles digest fsys hashRead detectionRead paths).2) ∨
        (p ∈ (getChangedFiles digest fsys hashRead detectionRead paths).2 ∧
          p ∉ (getChangedFiles digest fsys hashRead detectionRead paths).1))
    ∧ (∀ p, p ∈ (getChangedFiles digest fsys hashRead detectionRead paths).1 → p ∈ paths)
    ∧ (∀ p, p ∈ (getChangedFiles digest fsys hashRead detectionRead paths).2 → p ∈ paths) := by
  have hrun : getChangedFiles digest fsys hashRead detectionRead paths =
      (paths.filter (fun p =>
        hasFileChanged digest fsys (loadCache hashRead detectionRead).1.1 p),
       paths.filter (fun p =>
        !(hasFileChanged digest fsys (loadCache hashRead detectionRead).1.1 p))) := by
    rw [getChangedFiles]
    exact partitionChanged_eq_filter _ _ _ paths
  rw [hrun]
  refine ⟨rfl, rfl, ?_, ?_, ?_⟩
  · intro p hp
    by_cases h : hasFileChanged digest fsys (loadCache hashRead detectionRead).1.1 p
    · left
      constructor
      · exact List.mem_filter.mpr ⟨hp, h⟩
      · intro hmem
        have := (List.mem_filter.mp hmem).2
        simp [h] at this
    · right
      constructor
      · exact List.mem_filter.mpr ⟨hp, by simpa using h⟩
      · intro hmem
        have := (List.mem_filter.mp hmem).2
        simp [h] at this
  · intro p hp
    exact (List.mem_filter.mp hp).1
  · intro p hp
    exact (List.mem_filter.mp hp).1

/-! ## Claim C10 — set always succeeds, clobbering non-mapping ancestors -/

theorem splitSegs_ne_nil : ∀ (cs : List Char) (acc : String), splitSegs cs acc ≠ [] := by
  intro cs
  induction cs with
  | nil => intro acc; simp [splitSegs]
  | cons c rest ih =>
      intro acc
      by_cases h : c = '.' <;> simp [splitSegs, h, ih]

theorem dropLast_append_getLastD : ∀ (l : List String), l ≠ [] →
    ∀ d : String, l.dropLast ++ [l.getLastD d] = l := by
  intro l
  induction l with
  | nil => intro h; exact absurd rfl h
  | cons x xs ih =>
      intro _ d
      cases xs with
      | nil => rfl
      | cons y ys =>
          have := ih (by simp) x
          simpa [List.dropLast, List.getLastD] using this

/-- Writing along `init ++ [lastKey]` and reading the same segments back
returns the written value, whatever stood there before. -/
theorem getNestedGo_setNestedFields : ∀ (init : List String) (fs : Fields)
    (lastKey : String) (v d : JValue),
    getNestedGo (.vObj (setNestedFields fs init lastKey v)) d (init ++ [lastKey]) = v := by
  intro init
  induction init with
  | nil =>
      intro fs lastKey v d
      simp [setNestedFields, getNestedGo, stepIn, getKey_setKey_self]
  | cons k rest ih =>
      intro fs lastKey v d
      rw [setNestedFields]
      simp only [List.cons_append, getNestedGo, stepIn, getKey_setKey_self]
      exact ih _ lastKey v d

/-- C10: `set(key, value)` always succeeds — initialising an empty merged
configuration if none is loaded — and a subsequent `get` on the exact same
dotted path returns the value; while materialising intermediate levels, an
intermediate segment whose current value is not a nested mapping (scalar,
array, or null) is silently replaced by a fresh empty mapping that then holds
the rest of the written path, discarding the previous value. -/
theorem set_get_roundtrip (m : ConfigurationManager) (kp : String) (v d : JValue)
    (fs : Fields) (k lastKey : String) (rest : List String) (c w : JValue)
    (hc : getKey fs k = some c) (hnobj : isObject c = false) :
    (ConfigurationManager.set m kp v).get kp d = .ok v
    ∧ getKey (setNestedFields fs (k :: rest) lastKey w) k =
        some (.vObj (setNestedFields [] rest lastKey w)) := by
  constructor
  · show Except.ok (getNestedValue (.vObj (setNestedValue (m.mergedConfig.getD []) kp v)) kp d)
      = .ok v
    congr 1
    rw [getNestedValue, setNestedValue]
    have hne : splitPath kp ≠ [] := splitSegs_ne_nil kp.data ""
    calc getNestedGo
          (.vObj (setNestedFields (m.mergedConfig.getD []) (splitPath kp).dropLast
            ((splitPath kp).getLastD "") v)) d (splitPath kp)
        = getNestedGo
          (.vObj (setNestedFields (m.mergedConfig.getD []) (splitPath kp).dropLast
            ((splitPath kp).getLastD "") v)) d
          ((splitPath kp).dropLast ++ [(splitPath kp).getLastD ""]) := by
          rw [dropLast_append_getLastD _ hne]
      _ = v := getNestedGo_setNestedFields _ _ _ v d
  · rw [setNestedFields]
    rw [hc]
    have hred : (match some c with
        | some (.vObj cf) => cf
        | _ => ([] : Fields)) = [] := by
      cases c <;> simp_all [isObject]
    rw [hred, getKey_setKey_self]

/-- C10 witness: `set('deep.nested.option','v')` then `get` returns `'v'` even
from a fresh manager, and setting through the scalar at `a` replaces it by a
fresh mapping holding the rest of the path. -/
theorem set_get_roundtrip_witness :
    (ConfigurationManager.set ConfigurationManager.init "deep.nested.option"
        (.vStr "v")).get "deep.nested.option" .vUndef = .ok (.vStr "v")
    ∧ getKey (setNestedFields [("a", .vNum 5)] ["a", "b"] "c" (.vStr "w")) "a" =
        some (.vObj (setNestedFields [] ["b"] "c" (.vStr "w"))) := by
  have h := set_get_roundtrip ConfigurationManager.init "deep.nested.option" (.vStr "v")
    .vUndef [("a", .vNum 5)] "a" "c" ["b"] (.vNum 5) (.vStr "w") rfl rfl
  exact ⟨h.1, h.2⟩

end Rex
